import Mathlib

/-!
Verification of the bcache-tools storage-engine core (libbcache) against its
natural-language specification.  Each definition below is a shallow embedding
of a function or code path of the C sources under `src/libbcache/`; theorems
settle the spec claims about those functions.

Machine integers are modelled as `Nat`/`Int` with explicit `% 2^w` where the C
code relies on wrap-around.  External helpers that live outside the provided
sources (`fract_exp_two`, `ewma_add`, `bkey_successor`, `CONGESTED_MAX`) are
taken as parameters of the embedded functions, so no behaviour is invented for
them.
-/

/-! ## Width constants -/

/-- Modulus of a 32-bit unsigned integer. -/
def U32 : Nat := 4294967296

/-- Modulus of a 64-bit unsigned integer. -/
def U64 : Nat := 18446744073709551616

/-- Reinterpret the low 32 bits of a natural number as a signed C `int`
(two's complement), as happens when a `u64` expression is assigned to an
`int` variable. -/
def toInt32 (n : Nat) : Int :=
  let m := n % U32
  if m < 2147483648 then (m : Int) else (m : Int) - (U32 : Int)

/-! ## Btree node-cache reserve (`bch_recalc_btree_reserve`, btree_cache.c:21) -/

/-- Contribution of one btree root slot to the reserve:
`min_t(unsigned, 1, level) * 8` when the root is present, 0 otherwise.
A root slot is `some level` when `c->btree_roots[i].b` is non-NULL. -/
def rootReserveTerm : Option Nat → Nat
  | none => 0
  | some level => min 1 level * 8

/-- Embedding of `bch_recalc_btree_reserve` (btree_cache.c:21-34): the reserve
starts at 16, gains 8 when `c->btree_roots[0].b` is NULL, and gains
`min(1, level) * 8` for every present root. `roots` is the
`c->btree_roots[0 .. BTREE_ID_NR)` array, `some level` for present roots. -/
def bch_recalc_btree_reserve (roots : List (Option Nat)) : Nat :=
  (match roots[0]? with
   | some (some _) => 16
   | _ => 16 + 8)
  + (roots.map rootReserveTerm).sum

/-- The reserve formula exactly as claim C7 words it: 16 plus, for each root
present, `min(1, level) * 8` — with no term for an absent root 0. -/
def claimedReserve (roots : List (Option Nat)) : Nat :=
  16 + (roots.map rootReserveTerm).sum

/-- The reserve formula as amended: 16, plus 8 when the btree root of id 0 is
absent, plus `min(1, level) * 8` for each root present. -/
def reserveAmendedSpec (roots : List (Option Nat)) : Nat :=
  16 + (if (roots[0]?.getD none).isSome then 0 else 8)
     + (roots.map rootReserveTerm).sum

/-! ## Shrinker scan and count (`bch_mca_scan` / `bch_mca_count`,
btree_cache.c:198-313) -/

/-- A cached btree node as the shrinker sees it: whether `mca_reap` would
succeed on it (trylocks succeed, not dirty/write-blocked/noevict), and its
accessed flag. -/
structure CNode where
  reapable : Bool
  accessed : Bool
deriving DecidableEq, Repr

/-- Embedding of the first loop of `bch_mca_scan` (btree_cache.c:236-249)
over `btree_cache_freeable`: stop once `freed >= nr`; each node bumps the
counter `i`, and is freed when `++i > 3` and `mca_reap_notrace` succeeds. -/
def scanFreeable : List CNode → Nat → Nat → Nat → Nat
  | [], _nr, _i, freed => freed
  | b :: rest, nr, i, freed =>
    if nr ≤ freed then freed
    else if 3 < i + 1 && b.reapable then scanFreeable rest nr (i + 1) (freed + 1)
    else scanFreeable rest nr (i + 1) freed

/-- One pass of the `restart:` loop of `bch_mca_scan` (btree_cache.c:250-285)
over the `btree_cache` LRU.  `pre` holds already-visited surviving nodes (their
accessed flag cleared, btree_cache.c:284).  The pass ends with `Sum.inl freed`
when the loop breaks or completes, or `Sum.inr (freed, rotatedList)` when a
node was freed with `freed < nr` still true, in which case the C code
re-acquires the lock and jumps to `restart` on the list rotated to the saved
position (the freed node removed, iteration resuming after it). -/
def scanLRUPass : List CNode → List CNode → Nat → Nat →
    Sum Nat (Nat × List CNode)
  | [], _pre, _nr, freed => Sum.inl freed
  | b :: rest, pre, nr, freed =>
    if nr ≤ freed then Sum.inl freed
    else if !b.accessed && b.reapable then
      if nr ≤ freed + 1 then Sum.inl (freed + 1)
      else Sum.inr (freed + 1, rest ++ pre.reverse)
    else scanLRUPass rest ({ b with accessed := false } :: pre) nr freed

/-- Driver for the `restart:` loop: each `Sum.inr` result restarts the pass on
the rotated list.  Restarts strictly increase `freed`, which is bounded by
`nr`, so fuel `nr + 1` is never exhausted. -/
def scanLRU : Nat → List CNode → Nat → Nat → Nat
  | 0, _l, _nr, freed => freed
  | fuel + 1, l, nr, freed =>
    match scanLRUPass l [] nr freed with
    | Sum.inl f => f
    | Sum.inr (f, l2) => scanLRU fuel l2 nr f

/-- Cache-set state read by the shrinker callbacks. -/
structure ShrinkSt where
  shrinkerDisabled : Bool
  allocLockHeld : Bool
  used : Nat
  reserve : Nat
  freeable : List CNode
  lru : List CNode
deriving Repr

/-- Embedding of the macro `mca_can_free(c)` (btree_cache.c:36-37):
`max_t(int, 0, btree_cache_used - btree_cache_reserve)`, which for the
unsigned counters in range is truncated subtraction. -/
def mca_can_free (s : ShrinkSt) : Nat := s.used - s.reserve

/-- Embedding of `bch_mca_scan` (btree_cache.c:198-298).  `none` models the
early returns (`SHRINK_STOP` when the shrinker is disabled or the
cannibalisation lock is held, and `-1` when the trylock fails): no node is
freed there.  Otherwise the result is `(nodes freed, return value)`; the C
function returns `freed * btree_pages(c)`. -/
def bch_mca_scan (s : ShrinkSt) (nrToScan pages : Nat) : Option (Nat × Nat) :=
  if s.shrinkerDisabled then none
  else if s.allocLockHeld then none
  else
    let nr := min (nrToScan / pages) (mca_can_free s)
    let freed1 := scanFreeable s.freeable nr 0 0
    let freed := scanLRU (nr + 1) s.lru nr freed1
    some (freed, freed * pages)

/-- Embedding of `bch_mca_count` (btree_cache.c:300-313). -/
def bch_mca_count (s : ShrinkSt) (pages : Nat) : Nat :=
  if s.shrinkerDisabled then 0
  else if s.allocLockHeld then 0
  else mca_can_free s * pages

/-! ## Iterator position successor (`btree_type_successor`, btree_iter.h:190) -/

/-- Btree ids of the cache set.  The id values are declared by
`DEFINE_BCH_BTREE_IDS()` outside the provided sources; the code under
`src/` distinguishes only `BTREE_ID_INODES`, `BTREE_ID_EXTENTS` and the rest
(dirents, xattrs). -/
inductive BtreeId where
  | extents
  | inodes
  | dirents
  | xattrs
deriving DecidableEq, Repr

/-- A btree position, `struct bpos`: (inode, offset), both `u64`. -/
structure Bpos where
  inode : Nat
  offset : Nat
deriving DecidableEq, Repr

/-- Embedding of `btree_type_successor` (btree_iter.h:190-201).
`succ` stands for the external `bkey_successor`, defined outside the provided
sources; the function calls it only for btree ids other than inodes and
extents.  For `BTREE_ID_INODES` the inode field is incremented (u64 wrap) and
the offset reset; for `BTREE_ID_EXTENTS` the position is returned unchanged. -/
def btree_type_successor (succ : Bpos → Bpos) (id : BtreeId) (pos : Bpos) :
    Bpos :=
  if id = BtreeId.inodes then ⟨(pos.inode + 1) % U64, 0⟩
  else if id ≠ BtreeId.extents then succ pos
  else pos

/-- The successor exactly as claim C9 words it: for the extents tree the
position is advanced by the key's size (added to the offset). -/
def claimedTypeSuccessor (succ : Bpos → Bpos) (id : BtreeId) (pos : Bpos)
    (keySize : Nat) : Bpos :=
  if id = BtreeId.inodes then ⟨(pos.inode + 1) % U64, 0⟩
  else if id = BtreeId.extents then ⟨pos.inode, (pos.offset + keySize) % U64⟩
  else succ pos

/-! ## Node-cache hash invariant (`mca_hash_remove` btree_cache.c:99,
`mca_hash_insert` btree_cache.c:112, `bch_btree_node_fill` btree_cache.c:547) -/

/-- The per-node state the hash invariant is about: `ptrHash` is
`PTR_HASH(&b->key)`, the first u64 of the key's extent pointer value
(btree_cache.c:55), and `inHash` is membership of `b->hash` in
`c->btree_cache_table`. -/
structure NodeSt where
  ptrHash : Nat
  inHash : Bool
deriving DecidableEq, Repr

/-- Embedding of `mca_hash_remove` (btree_cache.c:99-110): the node is removed
from the hash table and `PTR_HASH(&b->key)` is zeroed so future lookups for it
fail. -/
def mca_hash_remove (_s : NodeSt) : NodeSt := ⟨0, false⟩

/-- Embedding of the successful path of `bch_btree_node_fill`
(btree_cache.c:559-560): `bkey_copy(&b->key, k)` sets the node's key to the
looked-up node pointer `k`, then `mca_hash_insert` links it into the hash
table. -/
def node_fill_success (k : Nat) (_s : NodeSt) : NodeSt := ⟨k, true⟩

/-- Embedding of the lost-race path of `bch_btree_node_fill`
(btree_cache.c:560-573): `mca_hash_insert` failed (another fill won), so the
node stays out of the hash and `bkey_i_to_extent(&b->key)->v._data[0] = 0`
marks it unhashed. -/
def node_fill_lost_race (_s : NodeSt) : NodeSt := ⟨0, false⟩

/-- The node-cache operations that touch a node's hash membership or its
pointer hash word. -/
inductive CacheOp where
  | fillSuccess (k : Nat)
  | fillLostRace
  | hashRemove
deriving DecidableEq, Repr

/-- Apply one node-cache operation to a node's state. -/
def applyCacheOp : CacheOp → NodeSt → NodeSt
  | CacheOp.fillSuccess k, s => node_fill_success k s
  | CacheOp.fillLostRace, s => node_fill_lost_race s
  | CacheOp.hashRemove, s => mca_hash_remove s

/-- Embedding of `mca_find` (btree_cache.c:132-137) restricted to one node:
an `rhashtable_lookup_fast` for key `k` returns this node exactly when the
node is linked in the table and its key field (`PTR_HASH(&b->key)`, the
hashtable key per `bch_btree_cache_params`) equals `PTR_HASH(k)`. -/
def mca_find_hits (s : NodeSt) (k : Nat) : Bool :=
  s.inHash && s.ptrHash == k

/-- The spec invariant `n ∈ hash ⟺ first_ptr(n) ≠ 0` for one cached node. -/
def nodeHashInv (s : NodeSt) : Prop := s.inHash = true ↔ s.ptrHash ≠ 0

/-! ## Locked found-in-cache path of `bch_btree_node_get`
(btree_cache.c:605-703) -/

/-- Outcomes that decide the found-in-cache path of `bch_btree_node_get`:
whether `btree_node_lock` succeeded, whether `PTR_HASH(&b->key)` still equals
`PTR_HASH(k)`, whether `b->level` equals the requested level, the
`race_fault()` debug injection, whether `btree_node_relock` on the parent
succeeds, and the node's `BTREE_NODE_read_error` flag. -/
structure GetCachedIn where
  lockOk : Bool
  hashMatch : Bool
  levelMatch : Bool
  raceFault : Bool
  relockOk : Bool
  readError : Bool
deriving DecidableEq, Repr

/-- Result of one attempt of the found-in-cache path. -/
inductive GetResult where
  | retry
  | err (e : Int)
  | ok
deriving DecidableEq, Repr

/-- Embedding of the `else` (found in cache) branch of `bch_btree_node_get`
(btree_cache.c:632-703).  Returns the result together with whether the caller
still holds the node lock on return.  `-4` is `-EINTR`, `-5` is `-EIO`.
If `btree_node_lock` fails the function returns `ERR_PTR(-EINTR)` without the
lock (btree_cache.c:664-665); if the pointer hash or level no longer matches
(or the fault is injected) the node is unlocked and the call retries when the
parent can be re-locked, else returns `-EINTR` (btree_cache.c:667-675); if the
node has a sticky read error it is unlocked and `-EIO` is returned
(btree_cache.c:692-695). -/
def bch_btree_node_get_cached (p : GetCachedIn) : GetResult × Bool :=
  if !p.lockOk then (GetResult.err (-4), false)
  else if !p.hashMatch || !p.levelMatch || p.raceFault then
    if p.relockOk then (GetResult.retry, false) else (GetResult.err (-4), false)
  else if p.readError then (GetResult.err (-5), false)
  else (GetResult.ok, true)

/-! ## Congestion signal (`bch_get_congested`, request.c:53-79) -/

/-- Embedding of `bch_get_congested` (request.c:53-79).  `fract` stands for
the external helper `fract_exp_two` and `cmax` for the external constant
`CONGESTED_MAX`, both defined outside the provided sources.  `clockUs` and
`lastUs` are `local_clock_us()` and `c->congested_last_us` (u64); their u64
difference, divided by 1024, is assigned to the C `int i` (`toInt32`).
`congestedCtr` is `atomic_read(&c->congested)` and `randWeight` the popcount
`bitmap_weight(&rand, BITS_PER_LONG)` of the random word. -/
def bch_get_congested (fract : Nat → Nat → Nat) (cmax : Nat)
    (readThresholdUs writeThresholdUs : Nat)
    (clockUs lastUs : Nat) (congestedCtr : Int) (randWeight : Nat) : Int :=
  if readThresholdUs = 0 ∧ writeThresholdUs = 0 then 0
  else
    let i0 : Int := toInt32 (((clockUs + (U64 - lastUs % U64)) % U64) / 1024)
    if i0 < 0 then 0
    else
      let i1 : Int := i0 + congestedCtr
      if 0 ≤ i1 then 0
      else
        let i2 : Int := i1 + (cmax : Int)
        let i3 : Int := if 0 < i2 then (fract i2.toNat 6 : Int) else i2
        let i4 : Int := i3 - (randWeight : Int)
        if 0 < i4 then i4 else 1

/-- The congestion formula exactly as claim C4 words it: 0 when both
thresholds are zero, otherwise `max(0, CONGESTED_MAX − elapsed_ms + counter)`
dithered by the popcount of a random word. -/
def claimedCongested (cmax : Nat) (readThresholdUs writeThresholdUs : Nat)
    (elapsedMs : Int) (congestedCtr : Int) (randWeight : Nat) : Int :=
  if readThresholdUs = 0 ∧ writeThresholdUs = 0 then 0
  else max 0 ((cmax : Int) - elapsedMs + congestedCtr - (randWeight : Int))

/-- The congestion formula as amended: 0 when disabled, when the elapsed
value is negative, or when `elapsed_ms + counter ≥ 0`; otherwise
`CONGESTED_MAX + elapsed_ms + counter` (a negative counter encodes
congestion), scaled by `fract_exp_two` when positive, minus the popcount of a
random word, clamped below at 1. -/
def congestedAmendedSpec (fract : Nat → Nat → Nat) (cmax : Nat)
    (readThresholdUs writeThresholdUs : Nat)
    (clockUs lastUs : Nat) (congestedCtr : Int) (randWeight : Nat) : Int :=
  let elapsedMs : Int := toInt32 (((clockUs + (U64 - lastUs % U64)) % U64) / 1024)
  if readThresholdUs = 0 ∧ writeThresholdUs = 0 then 0
  else if elapsedMs < 0 then 0
  else if 0 ≤ elapsedMs + congestedCtr then 0
  else
    let raw : Int := (cmax : Int) + (elapsedMs + congestedCtr)
    let scaled : Int := if 0 < raw then (fract raw.toNat 6 : Int) else raw
    max 1 (scaled - (randWeight : Int))

/-! ## Sequential detector of `check_should_bypass` (request.c:133-177) -/

/-- One entry of a cached device's recent-io ring (`struct io`, declared
outside the provided sources; its fields are visible from their uses in
request.c): `last` is the sector just past the previous bio (`bio_end_sector`),
`last_io` the jiffies deadline `jiffies + msecs_to_jiffies(5000)` set on the
previous access, and `sequential` the accumulated run length in bytes (a C
`unsigned`). -/
structure IoEntry where
  last : Nat
  last_io : Nat
  sequential : Nat
deriving DecidableEq, Repr

/-- The fields of `struct task_struct` used by the detector: the task's
current run (`sequential_io`) and its exponentially weighted moving average
(`sequential_io_avg`), both in bytes. -/
structure TaskSt where
  sequential_io : Nat
  sequential_io_avg : Nat
deriving DecidableEq, Repr

/-- Embedding of `add_sequential` (request.c:81-86).  `ewma` stands for the
external macro `ewma_add` (its third argument is the weight 3). -/
def add_sequential (ewma : Nat → Nat → Nat → Nat) (t : TaskSt) : TaskSt :=
  ⟨0, ewma t.sequential_io_avg t.sequential_io 3⟩

/-- Embedding of the hash-chain search of `check_should_bypass`
(request.c:135-138): the first entry of the chain whose `last` equals the
bio's start sector and whose deadline has not passed
(`time_before(jiffies, i->last_io)`). -/
def ioHit (chain : List IoEntry) (sector now : Nat) : Option IoEntry :=
  chain.find? (fun i => i.last == sector && now < i.last_io)

/-- Embedding of the overflow-guarded merge of `check_should_bypass`
(request.c:145-146): `if (i->sequential + bio->bi_iter.bi_size > i->sequential)
i->sequential += bio->bi_iter.bi_size;` in C `unsigned` arithmetic. -/
def seqMerge (seq size : Nat) : Nat :=
  if seq < (seq + size) % U32 then (seq + size) % U32 else seq

/-- Result of one run of the sequential detector: the bypass verdict, the
updated recent-io entry (re-hashed under its new `last` and moved to the LRU
tail), and the updated task state. -/
structure SeqDecision where
  bypass : Bool
  entry : IoEntry
  task : TaskSt
deriving DecidableEq, Repr

/-- Embedding of the sequential-detector slice of `check_should_bypass`
(request.c:133-177), entered only when `congested || dc->sequential_cutoff`
(request.c:124).  `chain` is the hash chain `iohash(dc, bio->bi_iter.bi_sector)`
and `lruFirst` the head of `dc->io_lru` used on a miss; `m5000` stands for the
external `msecs_to_jiffies(5000)`; `sector`/`size` are the bio's start sector
and byte size; `cutoff` is `dc->sequential_cutoff` (bytes) and `congested`
the value of `bch_get_congested`.  On a miss the LRU entry is recycled with
its run reset after `add_sequential` folds the task's run into its average;
either way the run is merged with the bio's size under the overflow guard,
and bypass triggers when `max(task run, task average) >> 9` reaches
`sequential_cutoff >> 9`, or the congestion threshold (request.c:158-170). -/
def check_should_bypass_seq (ewma : Nat → Nat → Nat → Nat) (m5000 : Nat)
    (chain : List IoEntry) (lruFirst : IoEntry) (task : TaskSt)
    (sector size now cutoff congested : Nat) : SeqDecision :=
  let found :=
    match ioHit chain sector now with
    | some i => (i, task)
    | none => ({ lruFirst with sequential := 0 }, add_sequential ewma task)
  let seq1 := seqMerge found.1.sequential size
  let entry : IoEntry := ⟨sector + size / 512, now + m5000, seq1⟩
  let task1 : TaskSt := ⟨seq1, found.2.sequential_io_avg⟩
  let sectors := max task1.sequential_io task1.sequential_io_avg / 512
  let bypass := (cutoff != 0 && cutoff / 512 ≤ sectors)
             || (congested != 0 && congested ≤ sectors)
  ⟨bypass, entry, task1⟩

/-- The bypass rule exactly as claim C5 words it: the request bypasses the
cache exactly when the resulting accumulated run reaches the device's
`sequential_cutoff`. -/
def claimedSeqBypass (d : SeqDecision) (cutoff : Nat) : Prop :=
  d.bypass = true ↔ cutoff ≤ d.entry.sequential

/-! ## Cached-device request entry (`__cached_dev_make_request`,
request.c:643-690) -/

/-- The bio fields `__cached_dev_make_request` dispatches on. -/
structure CachedBio where
  size : Nat
  preflush : Bool
  fua : Bool
  isWrite : Bool
  isDiscard : Bool
deriving DecidableEq, Repr

/-- The externally visible operations `__cached_dev_make_request` can start.
`journalFlushAsync` is `bch_journal_flush_async` (a journal barrier);
`submitBackingFlush` is the `closure_bio_submit` of the zero-size clone, whose
`bi_bdev` was redirected to the backing device `dc->disk_sb.bdev`
(request.c:652); `submitBackingPassthrough` and `endioImmediate` are the
paths taken when the cached device refuses a reference; `writePath` and
`readPath` stand for `cached_dev_write` / `cached_dev_read`, the only code
that performs extents-tree lookups, inserts or cache-device data I/O. -/
inductive ReqAction where
  | journalFlushAsync
  | submitBackingFlush
  | submitBackingPassthrough
  | endioImmediate
  | writePath
  | readPath
deriving DecidableEq, Repr

/-- Embedding of `__cached_dev_make_request` (request.c:643-690) as the list
of operations it starts, in program order.  `devGetOk` is the outcome of
`cached_dev_get(dc)` and `discardSupported` of `blk_queue_discard` on the
backing queue. -/
def cached_dev_make_request (devGetOk discardSupported : Bool)
    (bio : CachedBio) : List ReqAction :=
  if devGetOk then
    if bio.size = 0 then
      (if bio.preflush || bio.fua then [ReqAction.journalFlushAsync] else [])
        ++ [ReqAction.submitBackingFlush]
    else
      if bio.isWrite then [ReqAction.writePath] else [ReqAction.readPath]
  else
    if bio.isDiscard && !discardSupported then [ReqAction.endioImmediate]
    else [ReqAction.submitBackingPassthrough]

/-! ## Blockdev-volume request entry (`__blockdev_volume_make_request`,
request.c:742-791) -/

/-- The bio fields `__blockdev_volume_make_request` dispatches on. -/
structure VolBio where
  size : Nat
  preflush : Bool
  fua : Bool
  isWrite : Bool
  isDiscard : Bool
deriving DecidableEq, Repr

/-- Operations `__blockdev_volume_make_request` can start: the journal
barrier for an empty flush bio, `bch_write` (the only path that inserts into
the tree), and `bch_read`. -/
inductive VolAction where
  | journalFlushAsync
  | bchWrite
  | bchRead
deriving DecidableEq, Repr

/-- Result of `__blockdev_volume_make_request`: the operations started, and
the error the original bio completes with (set into `s->iop.error`, copied to
`orig_bio->bi_error` by `bio_complete` when `search_free` runs,
request.c:199-210). -/
structure VolResult where
  actions : List VolAction
  error : Int
deriving DecidableEq, Repr

/-- Embedding of `__blockdev_volume_make_request` (request.c:742-791).
`reservationFails` is the outcome of `bch_disk_reservation_get` for this bio
(non-zero return means no space).  A write bio that is not a discard and whose
reservation fails completes with `-ENOSPC` (`-28`) and starts nothing
(request.c:767-772); `bch_disk_reservation_get` is only reached by non-empty
write bios. -/
def blockdev_volume_make_request (reservationFails : Bool) (bio : VolBio) :
    VolResult :=
  if bio.size = 0 then
    ⟨if bio.preflush || bio.fua then [VolAction.journalFlushAsync] else [], 0⟩
  else if bio.isWrite then
    if !bio.isDiscard && reservationFails then ⟨[], -28⟩
    else ⟨[VolAction.bchWrite], 0⟩
  else ⟨[VolAction.bchRead], 0⟩

/-! ## Theorems -/

/-- C7 counterexample: with no btree root present, `bch_recalc_btree_reserve`
sets the reserve to 24 (the `!c->btree_roots[0].b` branch adds 8), while the
claimed formula `16 + Σ_root min(1, level) * 8` gives 16. -/
theorem recalc_reserve_counterexample :
    bch_recalc_btree_reserve [none, none, none, none] ≠
      claimedReserve [none, none, none, none] := by
  decide

/-- C7 (amended): `bch_recalc_btree_reserve` sets the btree node-cache
reserve to 16, plus 8 when the btree root of id 0 is absent, plus
`min(1, level) * 8` for each btree root present. -/
theorem recalc_reserve_amended (roots : List (Option Nat)) :
    bch_recalc_btree_reserve roots = reserveAmendedSpec roots := by
  unfold bch_recalc_btree_reserve reserveAmendedSpec
  cases h : roots[0]? with
  | none => simp [h]
  | some o => cases o <;> simp [h]

/-- C9 counterexample: on the extents tree `btree_type_successor` returns the
position unchanged (it takes no key and adds no size), contradicting the
claimed advance of the offset by the key's size. -/
theorem btree_type_successor_counterexample :
    btree_type_successor (fun p => p) BtreeId.extents ⟨0, 5⟩ ≠
      claimedTypeSuccessor (fun p => p) BtreeId.extents ⟨0, 5⟩ 1 := by
  decide

/-- C9 (amended): advancing an iterator position to the btree-type successor
yields: for the inodes tree, the inode field incremented (mod 2^64) with the
offset reset to 0; for the extents tree, the position unchanged (extent
positions are end-offsets, so keeping the key's end position already stands
past the key); for every other tree, `bkey_successor` of the position. -/
theorem btree_type_successor_amended (succ : Bpos → Bpos) (pos : Bpos) :
    btree_type_successor succ BtreeId.inodes pos = ⟨(pos.inode + 1) % U64, 0⟩ ∧
    btree_type_successor succ BtreeId.extents pos = pos ∧
    btree_type_successor succ BtreeId.dirents pos = succ pos ∧
    btree_type_successor succ BtreeId.xattrs pos = succ pos :=
  ⟨rfl, rfl, rfl, rfl⟩

/-- C10: the accumulated run counter `i->sequential` grows by the bio's size
exactly when the 32-bit unsigned addition does not wrap (and the size is
non-zero); when the addition wraps the run is left unchanged, and the counter
never decreases. -/
theorem seq_merge_no_wrap (seq size : Nat) (hseq : seq < U32)
    (hsize : size < U32) :
    (seq + size < U32 → 0 < size → seqMerge seq size = seq + size) ∧
    (U32 ≤ seq + size → seqMerge seq size = seq) ∧
    seq ≤ seqMerge seq size := by
  unfold seqMerge
  have hm : (seq + size) % U32 =
      if seq + size < U32 then seq + size else seq + size - U32 := by
    rcases lt_or_ge (seq + size) U32 with h | h
    · simp [Nat.mod_eq_of_lt h, h]
    · have h2 : seq + size - U32 < U32 := by
        have : 0 < U32 := by decide
        omega
      rw [Nat.mod_eq_sub_mod h, Nat.mod_eq_of_lt h2]
      simp [Nat.not_lt.mpr h]
  rw [hm]
  refine ⟨?_, ?_, ?_⟩
  · intro h hpos
    simp only [if_pos h]
    simp [Nat.lt_add_of_pos_right hpos]
  · intro h
    simp only [if_neg (Nat.not_lt.mpr h)]
    have : ¬ seq < seq + size - U32 := by omega
    simp [this]
  · split <;> split <;> omega

/-- C10 witness: a concrete no-wrap merge. -/
theorem seq_merge_no_wrap_witness :
    (100 : Nat) < U32 ∧ (50 : Nat) < U32 ∧
    ((100 + 50 < U32 → 0 < 50 → seqMerge 100 50 = 100 + 50) ∧
     (U32 ≤ 100 + 50 → seqMerge 100 50 = 100) ∧
     100 ≤ seqMerge 100 50) :=
  ⟨by decide, by decide, seq_merge_no_wrap 100 50 (by decide) (by decide)⟩

/-- C3: in the found-in-cache path of `bch_btree_node_get`, once the node is
locked, a stale pointer hash or level with an unre-lockable parent yields
`-EINTR` with the node unlocked, and a sticky read error yields `-EIO` with
the node unlocked. -/
theorem node_get_cached_error_paths (p : GetCachedIn) (hl : p.lockOk = true) :
    (¬(p.hashMatch = true ∧ p.levelMatch = true) → p.relockOk = false →
      bch_btree_node_get_cached p = (GetResult.err (-4), false)) ∧
    (p.hashMatch = true → p.levelMatch = true → p.raceFault = false →
      p.readError = true →
      bch_btree_node_get_cached p = (GetResult.err (-5), false)) := by
  obtain ⟨l, h, lv, r, rl, re⟩ := p
  simp only at hl
  subst hl
  cases h <;> cases lv <;> cases r <;> cases rl <;> cases re <;>
    simp [bch_btree_node_get_cached]

/-- A concrete input for the C3 witness: node locked, pointer hash stale,
parent not re-lockable. -/
def c3input : GetCachedIn := ⟨true, false, true, false, false, false⟩

/-- C3 witness: at `c3input` the call returns `-EINTR` with the node
unlocked. -/
theorem node_get_cached_error_paths_witness :
    c3input.lockOk = true ∧
    bch_btree_node_get_cached c3input = (GetResult.err (-4), false) :=
  ⟨rfl, (node_get_cached_error_paths c3input rfl).1 (by decide) rfl⟩

/-- C2: every node-cache operation preserves the invariant that a cached node
is reachable through the hash table exactly when the first u64 of its key's
pointer value is non-zero (a successful fill installs the non-zero node
pointer key); and after `mca_hash_remove` or the lost-race path of
`bch_btree_node_fill` every future lookup for the node fails. -/
theorem node_hash_invariant_preserved (s : NodeSt) (op : CacheOp)
    (_hinv : nodeHashInv s)
    (hvalid : ∀ k, op = CacheOp.fillSuccess k → k ≠ 0) :
    nodeHashInv (applyCacheOp op s) ∧
    (op = CacheOp.hashRemove ∨ op = CacheOp.fillLostRace →
      ∀ k, mca_find_hits (applyCacheOp op s) k = false) := by
  cases op with
  | fillSuccess k =>
      refine ⟨?_, ?_⟩
      · have hk := hvalid k rfl
        simpa [applyCacheOp, node_fill_success, nodeHashInv] using hk
      · intro hcontra
        rcases hcontra with hcontra | hcontra <;> cases hcontra
  | fillLostRace =>
      refine ⟨?_, fun _ k => ?_⟩
      · simp [applyCacheOp, node_fill_lost_race, nodeHashInv]
      · simp [applyCacheOp, node_fill_lost_race, mca_find_hits]
  | hashRemove =>
      refine ⟨?_, fun _ k => ?_⟩
      · simp [applyCacheOp, mca_hash_remove, nodeHashInv]
      · simp [applyCacheOp, mca_hash_remove, mca_find_hits]

/-- C2 witness: removing a hashed node with pointer hash 5 keeps the
invariant and makes every lookup fail. -/
theorem node_hash_invariant_preserved_witness :
    nodeHashInv (applyCacheOp CacheOp.hashRemove ⟨5, true⟩) ∧
    (CacheOp.hashRemove = CacheOp.hashRemove ∨
       CacheOp.hashRemove = CacheOp.fillLostRace →
      ∀ k, mca_find_hits (applyCacheOp CacheOp.hashRemove ⟨5, true⟩) k
        = false) :=
  node_hash_invariant_preserved ⟨5, true⟩ CacheOp.hashRemove
    (by simp [nodeHashInv]) (fun k hk => by cases hk)

/-- C8: a non-discard, non-empty write bio to a blockdev volume whose disk
reservation cannot be obtained completes back to the submitter with `-ENOSPC`
and starts no operation: `bch_write` is never called, so nothing is inserted
into the tree. -/
theorem volume_write_enospc (bio : VolBio) (hw : bio.isWrite = true)
    (hd : bio.isDiscard = false) (hs : bio.size ≠ 0) :
    (blockdev_volume_make_request true bio).error = -28 ∧
    (blockdev_volume_make_request true bio).actions = [] := by
  obtain ⟨sz, pf, fu, w, d⟩ := bio
  simp only at hw hd hs
  subst hw
  subst hd
  simp [blockdev_volume_make_request, hs]

/-- C8 witness: a 4096-byte plain write with a failing reservation completes
with `-ENOSPC` and starts nothing. -/
theorem volume_write_enospc_witness :
    (blockdev_volume_make_request true ⟨4096, false, false, true, false⟩).error
      = -28 ∧
    (blockdev_volume_make_request true
        ⟨4096, false, false, true, false⟩).actions = [] :=
  volume_write_enospc ⟨4096, false, false, true, false⟩ rfl rfl (by decide)

/-- C6: a zero-size bio carrying `PREFLUSH` on a cached device starts exactly
the journal barrier and one flush submitted to the backing device; in
particular no extents-tree lookup, no insert and no cache-device data I/O is
started (`cached_dev_read` / `cached_dev_write`, the only paths doing those,
are never entered). -/
theorem cached_dev_flush_no_cache_traffic (discardSupported : Bool)
    (bio : CachedBio) (hs : bio.size = 0) (hp : bio.preflush = true) :
    cached_dev_make_request true discardSupported bio =
      [ReqAction.journalFlushAsync, ReqAction.submitBackingFlush] ∧
    (cached_dev_make_request true discardSupported bio).count
      ReqAction.submitBackingFlush = 1 ∧
    ReqAction.writePath ∉ cached_dev_make_request true discardSupported bio ∧
    ReqAction.readPath ∉ cached_dev_make_request true discardSupported bio := by
  obtain ⟨sz, pf, fu, w, d⟩ := bio
  simp only at hs hp
  subst hs
  subst hp
  refine ⟨?_, ?_, ?_, ?_⟩ <;> simp [cached_dev_make_request, List.count_cons]

/-- C6 witness: the concrete zero-size `PREFLUSH` bio. -/
theorem cached_dev_flush_no_cache_traffic_witness :
    cached_dev_make_request true true ⟨0, true, false, false, false⟩ =
      [ReqAction.journalFlushAsync, ReqAction.submitBackingFlush] ∧
    (cached_dev_make_request true true ⟨0, true, false, false, false⟩).count
      ReqAction.submitBackingFlush = 1 ∧
    ReqAction.writePath ∉
      cached_dev_make_request true true ⟨0, true, false, false, false⟩ ∧
    ReqAction.readPath ∉
      cached_dev_make_request true true ⟨0, true, false, false, false⟩ :=
  cached_dev_flush_no_cache_traffic true ⟨0, true, false, false, false⟩ rfl rfl

/-- C4 counterexample: with thresholds enabled, zero elapsed time and the
congestion counter at `-(CONGESTED_MAX + 5)` (using 1024 for the external
`CONGESTED_MAX`), the code clamps the non-positive value to 1 and returns 1,
while the claimed `max(0, CONGESTED_MAX − elapsed_ms + counter)` (dithered or
not — the popcount here is 0) is 0. -/
theorem get_congested_counterexample :
    bch_get_congested (fun x _ => x) 1024 1 0 0 0 (-1029) 0 = 1 ∧
    claimedCongested 1024 1 0 0 (-1029) 0 = 0 := by
  constructor <;> decide

/-- C4 (amended): `bch_get_congested` returns 0 when both congestion
thresholds are zero, when the elapsed value is negative, or when
`elapsed_ms + counter ≥ 0`; otherwise it returns
`CONGESTED_MAX + elapsed_ms + counter` (the counter is negative when
congested), scaled by `fract_exp_two` when positive, minus the popcount of a
random word, clamped below at 1 — in particular never 0 on that path. -/
theorem get_congested_amended (fract : Nat → Nat → Nat) (cmax : Nat)
    (rt wt clockUs lastUs : Nat) (ctr : Int) (w : Nat) :
    bch_get_congested fract cmax rt wt clockUs lastUs ctr w =
      congestedAmendedSpec fract cmax rt wt clockUs lastUs ctr w := by
  unfold bch_get_congested congestedAmendedSpec
  by_cases h1 : rt = 0 ∧ wt = 0
  · simp [h1]
  · simp only [h1, if_false]
    set e : Int := toInt32 (((clockUs + (U64 - lastUs % U64)) % U64) / 1024)
      with he
    by_cases h2 : e < 0
    · simp [h2]
    · simp only [h2, if_false]
      by_cases h3 : 0 ≤ e + ctr
      · simp [h3]
      · simp only [h3, if_false]
        have hsum : e + ctr + (cmax : Int) = (cmax : Int) + (e + ctr) := by
          ring
        rw [hsum]
        set x : Int :=
          (if 0 < (cmax : Int) + (e + ctr)
           then (fract ((cmax : Int) + (e + ctr)).toNat 6 : Int)
           else (cmax : Int) + (e + ctr)) - (w : Int) with hx
        by_cases h4 : 0 < x
        · rw [if_pos h4, max_eq_right (by omega)]
        · rw [if_neg h4, max_eq_left (by omega)]

/-- The freeable-list loop of `bch_mca_scan` never frees past `nr`. -/
theorem scanFreeable_le (l : List CNode) :
    ∀ nr i freed, freed ≤ nr → scanFreeable l nr i freed ≤ nr := by
  induction l with
  | nil =>
      intro nr i freed h
      simpa [scanFreeable] using h
  | cons b rest ih =>
      intro nr i freed h
      by_cases h1 : nr ≤ freed
      · simpa [scanFreeable, h1] using h
      · by_cases h2 : (3 < i + 1 && b.reapable) = true
        · have : freed + 1 ≤ nr := by omega
          simpa [scanFreeable, h1, h2] using ih nr (i + 1) (freed + 1) this
        · simpa [scanFreeable, h1, h2] using ih nr (i + 1) freed h

/-- One LRU pass of `bch_mca_scan` never frees past `nr`, whether it
completes or requests a restart. -/
theorem scanLRUPass_le (l : List CNode) :
    ∀ pre nr freed, freed ≤ nr →
      (∀ f, scanLRUPass l pre nr freed = Sum.inl f → f ≤ nr) ∧
      (∀ f l2, scanLRUPass l pre nr freed = Sum.inr (f, l2) → f ≤ nr) := by
  induction l with
  | nil =>
      intro pre nr freed h
      refine ⟨fun f hf => ?_, fun f l2 hf => ?_⟩
      · simp only [scanLRUPass, Sum.inl.injEq] at hf
        omega
      · simp [scanLRUPass] at hf
  | cons b rest ih =>
      intro pre nr freed h
      by_cases h1 : nr ≤ freed
      · refine ⟨fun f hf => ?_, fun f l2 hf => ?_⟩
        · simp only [scanLRUPass, h1, if_true, Sum.inl.injEq] at hf
          omega
        · simp [scanLRUPass, h1] at hf
      · by_cases h2 : (!b.accessed && b.reapable) = true
        · by_cases h3 : nr ≤ freed + 1
          · refine ⟨fun f hf => ?_, fun f l2 hf => ?_⟩
            · simp only [scanLRUPass, h1, h2, h3, if_true, if_false,
                Sum.inl.injEq] at hf
              omega
            · simp [scanLRUPass, h1, h2, h3] at hf
          · refine ⟨fun f hf => ?_, fun f l2 hf => ?_⟩
            · simp [scanLRUPass, h1, h2, h3] at hf
            · simp only [scanLRUPass, h1, h2, h3, if_true, if_false,
                Sum.inr.injEq, Prod.mk.injEq] at hf
              omega
        · have hrec := ih ({ b with accessed := false } :: pre) nr freed h
          refine ⟨fun f hf => ?_, fun f l2 hf => ?_⟩
          · refine hrec.1 f ?_
            simpa [scanLRUPass, h1, h2] using hf
          · refine hrec.2 f l2 ?_
            simpa [scanLRUPass, h1, h2] using hf

/-- The whole restarting LRU loop of `bch_mca_scan` never frees past `nr`. -/
theorem scanLRU_le (fuel : Nat) :
    ∀ l nr freed, freed ≤ nr → scanLRU fuel l nr freed ≤ nr := by
  induction fuel with
  | zero =>
      intro l nr freed h
      simpa [scanLRU] using h
  | succ fu ih =>
      intro l nr freed h
      rw [scanLRU]
      cases hp : scanLRUPass l [] nr freed with
      | inl f =>
          exact (scanLRUPass_le l [] nr freed h).1 f hp
      | inr p =>
          obtain ⟨f, l2⟩ := p
          exact ih l2 nr f ((scanLRUPass_le l [] nr freed h).2 f l2 hp)

/-- C1: whenever `bch_mca_scan` actually scans, the number of nodes freed
never exceeds `max(0, btree_cache_used - btree_cache_reserve)`, so the cached
population never drops below the reserve; and `bch_mca_count` reports at most
that many reclaimable nodes scaled by pages per node. -/
theorem bch_mca_scan_respects_reserve (s : ShrinkSt)
    (nrToScan pages freed ret : Nat)
    (h : bch_mca_scan s nrToScan pages = some (freed, ret)) :
    freed ≤ mca_can_free s ∧
    (s.reserve ≤ s.used → s.reserve ≤ s.used - freed) ∧
    bch_mca_count s pages ≤ mca_can_free s * pages := by
  have hcount : bch_mca_count s pages ≤ mca_can_free s * pages := by
    unfold bch_mca_count
    split
    · exact Nat.zero_le _
    · split
      · exact Nat.zero_le _
      · exact Nat.le_refl _
  simp only [bch_mca_scan] at h
  split at h
  · exact absurd h (by simp)
  · split at h
    · exact absurd h (by simp)
    · simp only [Option.some.injEq, Prod.mk.injEq] at h
      obtain ⟨hf, -⟩ := h
      have h1 : scanFreeable s.freeable (min (nrToScan / pages)
          (mca_can_free s)) 0 0 ≤ min (nrToScan / pages) (mca_can_free s) :=
        scanFreeable_le s.freeable _ 0 0 (Nat.zero_le _)
      have h2 := scanLRU_le (min (nrToScan / pages) (mca_can_free s) + 1)
        s.lru (min (nrToScan / pages) (mca_can_free s)) _ h1
      have hfree : freed ≤ mca_can_free s := by
        rw [← hf]
        exact le_trans h2 (Nat.min_le_right _ _)
      have hres : s.reserve ≤ s.used → s.reserve ≤ s.used - freed := by
        intro hru
        have : mca_can_free s = s.used - s.reserve := rfl
        omega
      exact ⟨hfree, hres, hcount⟩

/-- A concrete shrinker state for the C1 witness: 20 nodes used, reserve 16,
six reapable unaccessed nodes on the LRU. -/
def c1state : ShrinkSt :=
  ⟨false, false, 20, 16, [],
   [⟨true, false⟩, ⟨true, false⟩, ⟨true, false⟩, ⟨true, false⟩,
    ⟨true, false⟩, ⟨true, false⟩]⟩

/-- C1 witness: scanning `c1state` with `nr_to_scan = 400` and 4 pages per
node frees exactly 4 nodes — the population stops exactly at the reserve. -/
theorem bch_mca_scan_respects_reserve_witness :
    bch_mca_scan c1state 400 4 = some (4, 16) ∧
    (4 ≤ mca_can_free c1state ∧
     (c1state.reserve ≤ c1state.used → c1state.reserve ≤ c1state.used - 4) ∧
     bch_mca_count c1state 4 ≤ mca_can_free c1state * 4) :=
  ⟨by decide, bch_mca_scan_respects_reserve c1state 400 4 4 16 (by decide)⟩

/-- A recent-io hash-chain hit requires the entry's `last` sector to equal
the bio's start sector and its deadline to still be in the future. -/
theorem ioHit_some (chain : List IoEntry) (sector now : Nat) (i : IoEntry)
    (h : ioHit chain sector now = some i) :
    i.last = sector ∧ now < i.last_io := by
  unfold ioHit at h
  have hp := List.find?_some h
  simpa using hp

/-- A recent-io miss means no chain entry matches the sector within its
deadline. -/
theorem ioHit_none (chain : List IoEntry) (sector now : Nat)
    (h : ioHit chain sector now = none) :
    ∀ j ∈ chain, ¬(j.last = sector ∧ now < j.last_io) := by
  unfold ioHit at h
  intro j hj
  have hp := List.find?_eq_none.mp h j hj
  simpa using hp

/-- C5 counterexample: a sequential-detector run where the accumulated run
(4096 bytes) is far below the 64 KiB cutoff, yet the request bypasses the
cache because the task's moving average (1 MiB) reaches the cutoff — the
bypass test compares `max(run, task average) >> 9`, not the run alone. -/
def c5decision : SeqDecision :=
  check_should_bypass_seq (fun a _ _ => a) 5000 [⟨100, 1000, 0⟩] ⟨0, 0, 0⟩
    ⟨0, 1048576⟩ 100 4096 5 65536 0

/-- C5 counterexample theorem: the resulting run is 4096 < 65536, the claim
therefore forbids a bypass, but the code bypasses. -/
theorem seq_bypass_counterexample :
    c5decision.bypass = true ∧ c5decision.entry.sequential = 4096 ∧
    ¬ claimedSeqBypass c5decision 65536 := by
  refine ⟨by decide, by decide, ?_⟩
  simp only [claimedSeqBypass]
  decide

/-- C5 (amended): a sequential-detector hit requires a recent-io entry whose
last sector equals the bio's start sector and whose deadline (stamped 5
seconds after the previous access) has not passed; on a hit the entry's run
grows by the bio's size (under the u32 overflow guard), on a miss a recycled
entry starts from the bio's size alone; and the request bypasses exactly when
`sequential_cutoff` is non-zero and `max(run, task average) >> 9` reaches
`sequential_cutoff >> 9`, or the congestion value is non-zero and that same
quantity reaches it. -/
theorem check_should_bypass_seq_amended (ewma : Nat → Nat → Nat → Nat)
    (m5000 : Nat) (chain : List IoEntry) (lruFirst : IoEntry) (task : TaskSt)
    (sector size now cutoff congested : Nat) (d : SeqDecision)
    (hd : check_should_bypass_seq ewma m5000 chain lruFirst task sector size
            now cutoff congested = d) :
    d.entry.last_io = now + m5000 ∧
    d.task.sequential_io = d.entry.sequential ∧
    (∀ i, ioHit chain sector now = some i →
       i.last = sector ∧ now < i.last_io ∧
       d.entry.sequential = seqMerge i.sequential size) ∧
    (ioHit chain sector now = none →
       (∀ j ∈ chain, ¬(j.last = sector ∧ now < j.last_io)) ∧
       d.entry.sequential = seqMerge 0 size) ∧
    (d.bypass = true ↔
       (cutoff ≠ 0 ∧ cutoff / 512 ≤
          max d.task.sequential_io d.task.sequential_io_avg / 512) ∨
       (congested ≠ 0 ∧ congested ≤
          max d.task.sequential_io d.task.sequential_io_avg / 512)) := by
  subst hd
  cases hhit : ioHit chain sector now with
  | some i =>
      obtain ⟨hlast, htime⟩ := ioHit_some chain sector now i hhit
      refine ⟨?_, ?_, ?_, ?_, ?_⟩
      · simp [check_should_bypass_seq, hhit]
      · simp [check_should_bypass_seq, hhit]
      · intro j hj
        obtain rfl : i = j := by injection hj
        exact ⟨hlast, htime, by simp [check_should_bypass_seq, hhit]⟩
      · intro hnone
        cases hnone
      · simp [check_should_bypass_seq, hhit, Bool.or_eq_true,
          Bool.and_eq_true, bne_iff_ne, decide_eq_true_eq]
  | none =>
      refine ⟨?_, ?_, ?_, ?_, ?_⟩
      · simp [check_should_bypass_seq, hhit]
      · simp [check_should_bypass_seq, hhit]
      · intro j hj
        cases hj
      · intro _
        exact ⟨ioHit_none chain sector now hhit,
          by simp [check_should_bypass_seq, hhit]⟩
      · simp [check_should_bypass_seq, hhit, Bool.or_eq_true,
          Bool.and_eq_true, bne_iff_ne, decide_eq_true_eq]

/-- C5 witness: the amended characterisation evaluated on the concrete
detector run of `c5decision`. -/
theorem check_should_bypass_seq_amended_witness :
    c5decision.entry.last_io = 5 + 5000 ∧
    c5decision.task.sequential_io = c5decision.entry.sequential ∧
    (c5decision.bypass = true ↔
       (65536 ≠ 0 ∧ 65536 / 512 ≤
          max c5decision.task.sequential_io
            c5decision.task.sequential_io_avg / 512) ∨
       (0 ≠ 0 ∧ 0 ≤
          max c5decision.task.sequential_io
            c5decision.task.sequential_io_avg / 512)) :=
  ⟨(check_should_bypass_seq_amended (fun a _ _ => a) 5000 [⟨100, 1000, 0⟩]
      ⟨0, 0, 0⟩ ⟨0, 1048576⟩ 100 4096 5 65536 0 c5decision rfl).1,
   (check_should_bypass_seq_amended (fun a _ _ => a) 5000 [⟨100, 1000, 0⟩]
      ⟨0, 0, 0⟩ ⟨0, 1048576⟩ 100 4096 5 65536 0 c5decision rfl).2.1,
   (check_should_bypass_seq_amended (fun a _ _ => a) 5000 [⟨100, 1000, 0⟩]
      ⟨0, 0, 0⟩ ⟨0, 1048576⟩ 100 4096 5 65536 0 c5decision rfl).2.2.2.2⟩
